import Mathlib

/-!
Shallow embedding of `src/excel_analysis.py`: the merged-cell loader
(`load_data`), the sidebar row filter (`df_filtered`), the column projection
(`df_final`), and the two exporters (`convert_df_to_excel`,
`convert_df_to_pdf`), together with theorems checking the specification's
claims about them.
-/

namespace Excel

/-- A scalar cell value as the pipeline sees it: a string or a number.
Numbers are modelled by rationals. -/
inductive Val where
  | str (s : String)
  | num (q : ℚ)
deriving DecidableEq

/-- A cell holds an optional scalar; `none` models an absent/NaN/None cell. -/
abbrev Cell := Option Val

/-- A pandas column label: a string name, or a default positional integer
label as produced by `pd.DataFrame(all_rows)` with no `columns=` argument. -/
inductive ColName where
  | named (s : String)
  | pos (n : ℕ)
deriving DecidableEq

/-- A rectangular in-memory table: ordered column labels and ordered rows. -/
structure Table where
  cols : List ColName
  rows : List (List Cell)
deriving DecidableEq

/-! ### Decimal rendering of natural numbers

Model of Python's decimal formatting of a non-negative integer, as used by
the f-string `f"Unnamed: {idx}"` (source line 60).  Little-endian digits are
produced with explicit fuel (`n` itself suffices since `n / 10 < n`). -/

/-- Little-endian base-10 digits of `n`, with explicit recursion fuel. -/
def decDigitsAux : ℕ → ℕ → List ℕ
  | 0, _ => []
  | fuel + 1, n => if n = 0 then [] else n % 10 :: decDigitsAux fuel (n / 10)

/-- Little-endian base-10 digits of `n` (empty for `n = 0`). -/
def decDigits (n : ℕ) : List ℕ := decDigitsAux n n

/-- Python's decimal rendering of a natural number. -/
def natToDec (n : ℕ) : String :=
  if n = 0 then "0" else String.mk ((decDigits n).reverse.map Nat.digitChar)

/-- Python `str()` of a scalar: strings pass through verbatim, numbers are
formatted (the exact numeric format is a model choice; the claims only use
that it is a fixed function of the value). -/
def strOfVal : Val → String
  | .str s => s
  | .num q => toString q

/-! ### Merge ranges and the raw worksheet grid -/

/-- A merged-cell range as returned by `range_.bounds` (source line 38):
inclusive column/row bounds.  The model is 0-based. -/
structure MRange where
  minCol : ℕ
  minRow : ℕ
  maxCol : ℕ
  maxRow : ℕ
deriving DecidableEq

/-- Cell `(i, j)` (row `i`, column `j`) lies inside the range. -/
def MRange.area (r : MRange) (i j : ℕ) : Prop :=
  r.minRow ≤ i ∧ i ≤ r.maxRow ∧ r.minCol ≤ j ∧ j ≤ r.maxCol

instance (r : MRange) (i j : ℕ) : Decidable (r.area i j) := by
  unfold MRange.area; exact inferInstance

/-- Bounds are ordered (true of every openpyxl `CellRange`). -/
def MRange.valid (r : MRange) : Prop :=
  r.minRow ≤ r.maxRow ∧ r.minCol ≤ r.maxCol

instance (r : MRange) : Decidable r.valid := by
  unfold MRange.valid; exact inferInstance

/-- Two ranges occupy disjoint rectangles (the spreadsheet-format guarantee
that merge ranges never overlap). -/
def MRange.apart (r₁ r₂ : MRange) : Prop :=
  r₁.maxRow < r₂.minRow ∨ r₂.maxRow < r₁.minRow ∨
    r₁.maxCol < r₂.minCol ∨ r₂.maxCol < r₁.minCol

instance (r₁ r₂ : MRange) : Decidable (r₁.apart r₂) := by
  unfold MRange.apart; exact inferInstance

/-- A raw worksheet: a cell grid addressed by (row, column), 0-based. -/
abbrev Grid := ℕ → ℕ → Cell

/-- One iteration of the unmerge loop (source lines 37-47): read the range's
top-left value from the current sheet and write it into every cell of the
range. -/
def unmergeStep (g : Grid) (r : MRange) : Grid := fun i j =>
  if r.area i j then g r.minRow r.minCol else g i j

/-- The whole unmerge pass: the `for range_ in list(ws.merged_cells.ranges)`
loop, processing ranges in list order against the evolving sheet. -/
def unmergeAll (g : Grid) (ranges : List MRange) : Grid :=
  ranges.foldl unmergeStep g

/-- `ws.values` materialised (source lines 50-54): the first `nR` rows of the
sheet, each with its first `nC` cells, in order. -/
def allRows (g : Grid) (nR nC : ℕ) : List (List Cell) :=
  (List.range nR).map fun i => (List.range nC).map fun j => g i j

/-- The name given to header cell `h` at position `idx` (source line 60):
`str(h) if h is not None else f"Unnamed: {idx}"`. -/
def headerName (idx : ℕ) (c : Cell) : String :=
  match c with
  | none => "Unnamed: " ++ natToDec idx
  | some v => strOfVal v

/-- The header list-comprehension with `enumerate`, counting from `idx`. -/
def processHeadersFrom (idx : ℕ) : List Cell → List String
  | [] => []
  | c :: cs => headerName idx c :: processHeadersFrom (idx + 1) cs

/-- Header normalization (source line 60): each raw header cell becomes its
string form, `None` cells becoming `Unnamed: <0-based position>`. -/
def processHeaders (raw : List Cell) : List String :=
  processHeadersFrom 0 raw

/-- Column labels of `pd.DataFrame(all_rows)`: a frame built from an empty
row list has no columns, otherwise the labels are `0, ..., nC - 1`. -/
def defaultCols (nR nC : ℕ) : List ColName :=
  if nR = 0 then [] else (List.range nC).map ColName.pos

/-- Header/data slicing of the extracted rows (source lines 56-66): when the
header index is in range, that row supplies the (normalized) column names and
the rows after it become the data; otherwise every row is data under default
positional labels. -/
def sliceHeader (rows : List (List Cell)) (header_row nC : ℕ) : Table :=
  if h : header_row < rows.length then
    ⟨(processHeaders (rows.get ⟨header_row, h⟩)).map ColName.named,
      rows.drop (header_row + 1)⟩
  else
    ⟨defaultCols rows.length nC, rows⟩

/-- The `handle_merged=True` branch of `load_data` (source lines 25-66):
unmerge every range replicating its anchor value, extract the rows, then
slice header and data. -/
def load_data (g : Grid) (nR nC : ℕ) (ranges : List MRange)
    (header_row : ℕ) : Table :=
  sliceHeader (allRows (unmergeAll g ranges) nR nC) header_row nC

/-! ### Row filtering (source lines 241-254) -/

/-- `df[col]` for one row: the cell under label `c`, looking the label up in
the column list (first match; `none` when the label is absent). -/
def getCell (cols : List ColName) (row : List Cell) (c : ColName) : Cell :=
  row.getD (cols.indexOf c) none

/-- `df[col].isin(allowed)` for one row: an absent/NaN cell never matches
(the app's allowed sets come from `dropna().unique()`, so they hold no NaN);
otherwise membership in the allowed list. -/
def rowMatches (cols : List ColName) (c : ColName) (allowed : List Val)
    (row : List Cell) : Bool :=
  match getCell cols row c with
  | none => false
  | some v => decide (v ∈ allowed)

/-- One pass of the sidebar filter loop (source lines 250-254): keep the rows
whose value in the chosen column is in the allowed list.  The source's two
branches — `isin(selected_values)` when the selection is non-empty and
`isin([])` when it is empty — are both `isin` of the selection. -/
def filterStep (t : Table) (f : ColName × List Val) : Table :=
  ⟨t.cols, t.rows.filter fun r => rowMatches t.cols f.1 f.2 r⟩

/-- The whole `for col in filter_cols` loop (source lines 241-254), folding
`df_filtered = df_filtered[df_filtered[col].isin(...)]` over the spec. -/
def applyFilters (t : Table) (spec : List (ColName × List Val)) : Table :=
  spec.foldl filterStep t

/-! ### Column projection (source lines 275-279) -/

/-- Python exception values relevant to this pipeline. -/
inductive PyError where
  | keyError
  | zeroDivisionError
  | buildError
deriving DecidableEq

instance {ε α : Type} [DecidableEq ε] [DecidableEq α] :
    DecidableEq (Except ε α) := fun a b =>
  match a, b with
  | .ok x, .ok y =>
      if h : x = y then .isTrue (by rw [h]) else .isFalse (by simp [h])
  | .error x, .error y =>
      if h : x = y then .isTrue (by rw [h]) else .isFalse (by simp [h])
  | .ok _, .error _ => .isFalse (by simp)
  | .error _, .ok _ => .isFalse (by simp)

/-- `df_filtered[selected_columns]` (source line 276): the requested columns
in the requested order; pandas raises `KeyError` when any requested label is
missing from the frame. -/
def project (t : Table) (sel : List ColName) : Except PyError Table :=
  if sel.all fun c => decide (c ∈ t.cols) then
    .ok ⟨sel, t.rows.map fun r => sel.map fun c => getCell t.cols r c⟩
  else .error .keyError

/-! ### Spreadsheet export (source lines 72-77) -/

/-- The cell `to_excel` writes for a column label in the header row. -/
def cellOfColName : ColName → Cell
  | .named s => some (.str s)
  | .pos n => some (.num (n : ℚ))

/-- A workbook: named sheets, each a list of cell rows. -/
structure Workbook where
  sheets : List (String × List (List Cell))
deriving DecidableEq

/-- `convert_df_to_excel` (source lines 72-77): `to_excel` with
`index=False` and `sheet_name='Filtered_Data'` writes a single sheet holding
the header row followed by the data rows, with no index column. -/
def convert_df_to_excel (t : Table) : Workbook :=
  ⟨[("Filtered_Data", (t.cols.map cellOfColName) :: t.rows)]⟩

/-- Modelled from the spec: re-parsing the exported sheet with a standard
spreadsheet reader (`pd.read_excel` with `header=0`, which is outside this
repository): row 0 supplies the column labels — string cells as names,
numeric cells as integer labels — and the remaining rows are data. -/
def colNameOfCell : Cell → ColName
  | none => ColName.named ""
  | some (.str s) => ColName.named s
  | some (.num q) => ColName.pos q.num.toNat

/-- Modelled from the spec: the standard reader's sheet-to-table step. -/
def parseSheet (rows : List (List Cell)) : Table :=
  match rows with
  | [] => ⟨[], []⟩
  | h :: rest => ⟨h.map colNameOfCell, rest⟩

/-! ### PDF export (source lines 79-153) -/

/-- One ReportLab point per unit; `inch = 72` points (source line 9). -/
def inch : ℚ := 72

/-- Python's binary `max` on rationals (an executable rendering of `max`). -/
def pyMax (a b : ℚ) : ℚ := if a ≤ b then b else a

/-- The page-width formula of source line 86:
`max(11 * inch, num_cols * 1.5 * inch + 1 * inch)`. -/
def pageWidth (num_cols : ℕ) : ℚ :=
  pyMax (11 * inch) ((num_cols : ℚ) * ((3 / 2 : ℚ) * inch) + 1 * inch)

/-- The document `convert_df_to_pdf` hands to ReportLab: page geometry,
margins, title, cell texts and column widths (source lines 91-146). -/
structure PdfDoc where
  pageWidth : ℚ
  pageHeight : ℚ
  leftMargin : ℚ
  rightMargin : ℚ
  topMargin : ℚ
  bottomMargin : ℚ
  title : String
  tableData : List (List String)
  colWidths : List ℚ
deriving DecidableEq

/-- The text rendered for one body cell (source lines 120-121):
`str(item) if pd.notna(item) else ""`, then newlines become `<br/>`. -/
def cellText (c : Cell) : String :=
  match c with
  | none => ""
  | some v => (strOfVal v).replace "\n" "<br/>"

/-- `str(col)` for a column label (header Paragraph text, source line 114). -/
def strOfColName : ColName → String
  | .named s => s
  | .pos n => natToDec n

/-- `convert_df_to_pdf` (source lines 79-153).  `build_err` stands for the
outcome of the external `doc.build` call: `some e` when it raises `e`.  With
zero columns, `available_width / num_cols` at source line 126 raises
`ZeroDivisionError` before the `try` block, so it escapes; a `doc.build`
exception is caught and turned into the `None` result (source lines
148-151). -/
def convert_df_to_pdf (build_err : Option PyError) (t : Table) :
    Except PyError (Option PdfDoc) :=
  let num_cols := t.cols.length
  let total_page_width := pageWidth num_cols
  let page_height := (17 / 2 : ℚ) * inch
  let header := t.cols.map fun c => "<b>" ++ strOfColName c ++ "</b>"
  let data := header :: t.rows.map fun r => r.map cellText
  let available_width := total_page_width - 1 * inch
  if num_cols = 0 then .error .zeroDivisionError
  else
    let col_width := available_width / (num_cols : ℚ)
    match build_err with
    | some _ => .ok none
    | none =>
        .ok (some ⟨total_page_width, page_height, inch / 2, inch / 2,
          inch / 2, inch / 2, "Filtered Data Report", data,
          List.replicate num_cols col_width⟩)

/-! ### Lemmas about the unmerge pass -/

lemma unmergeAll_cons (g : Grid) (a : MRange) (tl : List MRange) :
    unmergeAll g (a :: tl) = unmergeAll (unmergeStep g a) tl := rfl

lemma unmergeAll_of_not_area (rs : List MRange) (i j : ℕ) :
    ∀ g : Grid, (∀ r ∈ rs, ¬ r.area i j) → unmergeAll g rs i j = g i j := by
  induction rs with
  | nil => intro g _; rfl
  | cons a tl ih =>
      intro g h
      rw [unmergeAll_cons, ih (unmergeStep g a) fun r hr => h r (by simp [hr])]
      simp [unmergeStep, h a (by simp)]

lemma apart_not_area {r₁ r₂ : MRange} (h : r₁.apart r₂) {i j : ℕ}
    (h₁ : r₁.area i j) : ¬ r₂.area i j := by
  rcases h₁ with ⟨a1, a2, a3, a4⟩
  rintro ⟨b1, b2, b3, b4⟩
  rcases h with h | h | h | h <;> omega

lemma MRange.area_anchor {r : MRange} (hv : r.valid) :
    r.area r.minRow r.minCol := by
  rcases hv with ⟨h1, h2⟩
  exact ⟨le_refl _, h1, le_refl _, h2⟩

lemma unmergeAll_of_area (rs : List MRange) :
    ∀ g : Grid, rs.Pairwise MRange.apart → (∀ r ∈ rs, r.valid) →
      ∀ r ∈ rs, ∀ i j, r.area i j →
        unmergeAll g rs i j = g r.minRow r.minCol := by
  induction rs with
  | nil => intro g _ _ r hr; simp at hr
  | cons a tl ih =>
      intro g hp hv r hr i j harea
      obtain ⟨hhead, htail⟩ := List.pairwise_cons.mp hp
      rcases List.mem_cons.mp hr with heq | hrtl
      · subst heq
        have hnone : ∀ r₂ ∈ tl, ¬ r₂.area i j := fun r₂ h₂ =>
          apart_not_area (hhead r₂ h₂) harea
        rw [unmergeAll_cons, unmergeAll_of_not_area tl i j _ hnone]
        simp [unmergeStep, harea]
      · have hv₂ : ∀ r₂ ∈ tl, r₂.valid := fun r₂ h₂ => hv r₂ (by simp [h₂])
        rw [unmergeAll_cons, ih (unmergeStep g a) htail hv₂ r hrtl i j harea]
        have hanchor : r.area r.minRow r.minCol :=
          MRange.area_anchor (hv r (by simp [hrtl]))
        have hna : ¬ a.area r.minRow r.minCol := fun hcontra =>
          apart_not_area (hhead r hrtl) hcontra hanchor
        simp [unmergeStep, hna]

lemma allRows_length (g : Grid) (nR nC : ℕ) :
    (allRows g nR nC).length = nR := by
  simp [allRows]

/-- C1: in the unmerge pass, every cell inside a merge range ends up equal to
the raw sheet's value at that range's top-left anchor, every cell outside all
ranges is unchanged, and `load_data` performs this replication on the raw
sheet before slicing the header row and data rows. -/
theorem load_data_unmerge_replicates (g : Grid) (nR nC header_row : ℕ)
    (rs : List MRange) (hp : rs.Pairwise MRange.apart)
    (hv : ∀ r ∈ rs, r.valid) :
    (∀ r ∈ rs, ∀ i j, r.area i j →
        unmergeAll g rs i j = g r.minRow r.minCol) ∧
    (∀ i j, (∀ r ∈ rs, ¬ r.area i j) → unmergeAll g rs i j = g i j) ∧
    load_data g nR nC rs header_row =
      sliceHeader (allRows (unmergeAll g rs) nR nC) header_row nC :=
  ⟨unmergeAll_of_area rs g hp hv,
   fun i j h => unmergeAll_of_not_area rs i j g h, rfl⟩

/-- Concrete sheet for the C1 witness: the anchor cell (0,0) holds "v",
every other cell is empty. -/
def gC1 : Grid := fun i j => if i = 0 ∧ j = 0 then some (.str "v") else none

theorem load_data_unmerge_replicates_witness :
    MRange.area ⟨0, 0, 1, 1⟩ 1 1 ∧
    unmergeAll gC1 [⟨0, 0, 1, 1⟩] 1 1 = gC1 0 0 :=
  ⟨by decide,
   (load_data_unmerge_replicates gC1 2 2 0 [⟨0, 0, 1, 1⟩]
      (by simp) (by decide)).1 ⟨0, 0, 1, 1⟩ (by simp) 1 1 (by decide)⟩

/-- C10: when the requested header index is at or beyond the sheet's row
count, the merged-cell path of `load_data` does not fail: it skips header
slicing and returns every extracted row as data under the default positional
column labels. -/
theorem load_data_header_out_of_range (g : Grid) (nR nC header_row : ℕ)
    (rs : List MRange) (h : nR ≤ header_row) :
    (load_data g nR nC rs header_row).cols = defaultCols nR nC ∧
    (load_data g nR nC rs header_row).rows =
      allRows (unmergeAll g rs) nR nC := by
  rw [load_data, sliceHeader, dif_neg]
  · exact ⟨by rw [allRows_length], rfl⟩
  · rw [allRows_length]; omega

/-- Concrete sheet for the C10 witness: a single empty cell. -/
def gC10 : Grid := fun _ _ => none

theorem load_data_header_out_of_range_witness :
    (load_data gC10 1 1 [] 5).cols = defaultCols 1 1 :=
  (load_data_header_out_of_range gC10 1 1 5 [] (by decide)).1

/-! ### Lemmas about filtering -/

lemma applyFilters_cons (t : Table) (f : ColName × List Val)
    (spec : List (ColName × List Val)) :
    applyFilters t (f :: spec) = applyFilters (filterStep t f) spec := rfl

lemma filterStep_rows_length (t : Table) (f : ColName × List Val) :
    (filterStep t f).rows.length ≤ t.rows.length :=
  List.length_filter_le _ _

lemma applyFilters_length (spec : List (ColName × List Val)) :
    ∀ t : Table, (applyFilters t spec).rows.length ≤ t.rows.length := by
  induction spec with
  | nil => intro t; exact le_refl _
  | cons f s ih =>
      intro t
      exact le_trans (ih (filterStep t f)) (filterStep_rows_length t f)

lemma rowMatches_nil (cols : List ColName) (c : ColName) (row : List Cell) :
    rowMatches cols c [] row = false := by
  unfold rowMatches
  cases getCell cols row c <;> simp

lemma filterStep_nil_rows (t : Table) (c : ColName) :
    (filterStep t (c, [])).rows = [] := by
  simp [filterStep, rowMatches_nil]

lemma applyFilters_rows_nil (spec : List (ColName × List Val)) :
    ∀ t : Table, t.rows = [] → (applyFilters t spec).rows = [] := by
  induction spec with
  | nil => intro t h; exact h
  | cons f s ih =>
      intro t h
      rw [applyFilters_cons]
      exact ih (filterStep t f) (by simp [filterStep, h])

lemma applyFilters_mem_nil (spec : List (ColName × List Val)) :
    ∀ (t : Table) (c : ColName), (c, ([] : List Val)) ∈ spec →
      (applyFilters t spec).rows = [] := by
  induction spec with
  | nil => intro t c h; simp at h
  | cons f s ih =>
      intro t c h
      rw [applyFilters_cons]
      rcases List.mem_cons.mp h with heq | hs
      · rw [← heq]
        exact applyFilters_rows_nil s _ (filterStep_nil_rows t c)
      · exact ih (filterStep t f) c hs

/-- C2: filtering never grows the table — the filtered row count is at most
the input row count — and as soon as some filtered column's allowed-value
list is empty, the result has exactly zero rows. -/
theorem applyFilters_shrinks (t : Table) (spec : List (ColName × List Val)) :
    (applyFilters t spec).rows.length ≤ t.rows.length ∧
    ∀ c, (c, ([] : List Val)) ∈ spec →
      (applyFilters t spec).rows.length = 0 := by
  refine ⟨applyFilters_length spec t, fun c h => ?_⟩
  rw [applyFilters_mem_nil spec t c h]
  rfl

theorem applyFilters_shrinks_witness :
    (applyFilters ⟨[ColName.named "A"], [[some (Val.str "x")]]⟩
      [(ColName.named "A", [])]).rows.length = 0 :=
  (applyFilters_shrinks ⟨[ColName.named "A"], [[some (Val.str "x")]]⟩
    [(ColName.named "A", [])]).2 (ColName.named "A") (by simp)

/-! ### Projection and spreadsheet roundtrip -/

/-- C4: projecting onto an ordered list of present column labels succeeds,
preserves the row count, and returns exactly the requested columns in the
requested order; requesting any absent label raises `KeyError` (the
`UnknownColumn` of the spec) instead of being silently ignored. -/
theorem project_spec (t : Table) (sel : List ColName) :
    ((∀ c ∈ sel, c ∈ t.cols) → ∃ u : Table,
        project t sel = .ok u ∧ u.cols = sel ∧
        u.rows.length = t.rows.length) ∧
    ((∃ c ∈ sel, c ∉ t.cols) → project t sel = .error .keyError) := by
  constructor
  · intro h
    have hif : (sel.all fun c => decide (c ∈ t.cols)) = true := by
      rw [List.all_eq_true]
      intro c hc
      exact decide_eq_true (h c hc)
    refine ⟨⟨sel, t.rows.map fun r => sel.map fun c => getCell t.cols r c⟩,
      ?_, rfl, by simp⟩
    rw [project, if_pos hif]
  · rintro ⟨c, hc, hnc⟩
    rw [project, if_neg]
    intro hall
    rw [List.all_eq_true] at hall
    exact hnc (of_decide_eq_true (hall c hc))

/-- Concrete table for the C4 witness. -/
def tC4 : Table := ⟨[ColName.named "A"], [[some (Val.str "x")]]⟩

theorem project_spec_witness :
    project tC4 [ColName.named "Z"] = .error .keyError :=
  (project_spec tC4 [ColName.named "Z"]).2
    ⟨ColName.named "Z", by simp, by decide⟩

lemma colNameOfCell_cellOfColName (c : ColName) :
    colNameOfCell (cellOfColName c) = c := by
  cases c with
  | named s => rfl
  | pos n => simp [cellOfColName, colNameOfCell]

lemma map_colNameOfCell_cellOfColName (cols : List ColName) :
    cols.map (colNameOfCell ∘ cellOfColName) = cols := by
  induction cols with
  | nil => rfl
  | cons c cs ih => simp [colNameOfCell_cellOfColName, ih]

/-- C5: the spreadsheet export writes exactly one sheet, named
`Filtered_Data`, holding the header row followed by the data rows in table
order with no index column; re-parsing that sheet with the standard reader
reproduces the table's column labels and cell values exactly. -/
theorem convert_df_to_excel_roundtrip (t : Table) :
    (convert_df_to_excel t).sheets.length = 1 ∧
    ∀ name sheet, (name, sheet) ∈ (convert_df_to_excel t).sheets →
      name = "Filtered_Data" ∧
      sheet = (t.cols.map cellOfColName) :: t.rows ∧
      parseSheet sheet = t := by
  refine ⟨rfl, ?_⟩
  intro name sheet h
  simp only [convert_df_to_excel, List.mem_singleton, Prod.mk.injEq] at h
  obtain ⟨h1, h2⟩ := h
  subst h1; subst h2
  refine ⟨rfl, rfl, ?_⟩
  cases t with
  | mk cols rows =>
      simp only [parseSheet, List.map_map, Table.mk.injEq]
      exact ⟨map_colNameOfCell_cellOfColName cols, trivial⟩

/-- Concrete table for the C5 witness. -/
def tC5 : Table := ⟨[ColName.named "A", ColName.named "B"],
  [[some (Val.str "x"), none]]⟩

theorem convert_df_to_excel_roundtrip_witness :
    parseSheet [[some (Val.str "A"), some (Val.str "B")],
      [some (Val.str "x"), none]] = tC5 :=
  ((convert_df_to_excel_roundtrip tC5).2 "Filtered_Data"
    [[some (Val.str "A"), some (Val.str "B")], [some (Val.str "x"), none]]
    (by decide)).2.2

/-! ### PDF layout -/

lemma pyMax_eq_max (a b : ℚ) : pyMax a b = max a b := by
  rw [pyMax, max_def]

/-- Inverting a successful `convert_df_to_pdf` run: the input had at least
one column, the build succeeded, and the document is the literal layout. -/
lemma convert_df_to_pdf_ok (t : Table) (e : Option PyError) (d : PdfDoc)
    (h : convert_df_to_pdf e t = .ok (some d)) :
    t.cols.length ≠ 0 ∧
    d = ⟨pageWidth t.cols.length, (17 / 2 : ℚ) * inch, inch / 2, inch / 2,
      inch / 2, inch / 2, "Filtered Data Report",
      (t.cols.map fun c => "<b>" ++ strOfColName c ++ "</b>") ::
        t.rows.map (fun r => r.map cellText),
      List.replicate t.cols.length
        ((pageWidth t.cols.length - 1 * inch) / (t.cols.length : ℚ))⟩ := by
  by_cases hc : t.cols.length = 0
  · simp [convert_df_to_pdf, hc] at h
  · cases e with
    | some e₁ => simp [convert_df_to_pdf, hc] at h
    | none =>
        simp only [convert_df_to_pdf] at h
        rw [if_neg hc] at h
        refine ⟨hc, ?_⟩
        injection h with h₁
        injection h₁ with h₂
        exact h₂.symm

/-- C3: the page width is the source's
`max(11 * inch, num_cols * 1.5 * inch + 1 * inch)`, it is monotonically
non-decreasing in the column count, and in every successfully built document
each column width times the column count is at most the page width minus the
fixed left and right margins. -/
theorem pdf_page_width_spec :
    (∀ C : ℕ, pageWidth C =
        max (11 * inch) ((C : ℚ) * ((3 / 2 : ℚ) * inch) + 1 * inch)) ∧
    (∀ C D : ℕ, C ≤ D → pageWidth C ≤ pageWidth D) ∧
    (∀ (t : Table) (e : Option PyError) (d : PdfDoc),
        convert_df_to_pdf e t = .ok (some d) →
        ∀ w ∈ d.colWidths,
          w * (t.cols.length : ℚ) ≤
            d.pageWidth - (d.leftMargin + d.rightMargin)) := by
  refine ⟨fun C => pyMax_eq_max _ _, fun C D h => ?_, ?_⟩
  · rw [pageWidth, pageWidth, pyMax_eq_max, pyMax_eq_max]
    apply max_le_max le_rfl
    have hcast : (C : ℚ) ≤ (D : ℚ) := Nat.cast_le.mpr h
    have hpos : (0 : ℚ) ≤ (3 / 2 : ℚ) * inch := by norm_num [inch]
    exact add_le_add_right (mul_le_mul_of_nonneg_right hcast hpos) _
  · intro t e d h w hw
    obtain ⟨hc, hd⟩ := convert_df_to_pdf_ok t e d h
    subst hd
    simp only at hw
    rw [List.eq_of_mem_replicate hw]
    rw [div_mul_cancel₀ _ (Nat.cast_ne_zero.mpr hc)]
    apply le_of_eq
    ring

/-- Concrete inputs for the C3 witness: a one-column table and the document
the exporter builds for it. -/
def tC3 : Table := ⟨[ColName.named "A"], []⟩

/-- The document `convert_df_to_pdf` builds for `tC3`. -/
def dC3 : PdfDoc := ⟨792, 612, 36, 36, 36, 36, "Filtered Data Report",
  [["<b>A</b>"]], [720]⟩

theorem pdf_page_width_spec_witness :
    (720 : ℚ) * ((tC3.cols.length : ℕ) : ℚ) ≤
      dC3.pageWidth - (dC3.leftMargin + dC3.rightMargin) :=
  pdf_page_width_spec.2.2 tC3 none dC3
    (by norm_num [tC3, dC3, convert_df_to_pdf, pageWidth, pyMax, inch,
          strOfColName]
        decide)
    720 (by simp [dC3])

/-- C7: when the external document build step fails, `convert_df_to_pdf`
returns the generic `None` failure value instead of letting the exception
escape, and the result does not depend on which exception the build step
raised. -/
theorem pdf_build_failure_yields_none (t : Table) (e : PyError)
    (h : t.cols.length ≠ 0) :
    convert_df_to_pdf (some e) t = .ok none ∧
    ∀ e₂ : PyError,
      convert_df_to_pdf (some e) t = convert_df_to_pdf (some e₂) t := by
  constructor
  · simp [convert_df_to_pdf, h]
  · intro e₂
    simp [convert_df_to_pdf, h]

/-- Concrete table for the C7 witness. -/
def tC7 : Table := ⟨[ColName.named "C"], [[some (Val.str "z")]]⟩

theorem pdf_build_failure_yields_none_witness :
    convert_df_to_pdf (some PyError.buildError) tC7 = .ok none :=
  (pdf_build_failure_yields_none tC7 PyError.buildError (by decide)).1

/-- C8: the page height handed to the document builder is the fixed constant
`8.5 * inch = 612` points (landscape letter height) for every successfully
built table, independent of its row or column count. -/
theorem pdf_page_height_fixed (t : Table) (e : Option PyError) (d : PdfDoc)
    (h : convert_df_to_pdf e t = .ok (some d)) :
    d.pageHeight = (17 / 2 : ℚ) * inch ∧ d.pageHeight = 612 := by
  obtain ⟨_, hd⟩ := convert_df_to_pdf_ok t e d h
  subst hd
  refine ⟨rfl, ?_⟩
  norm_num [inch]

/-- Concrete inputs for the C8 witness. -/
def tC8 : Table := ⟨[ColName.named "B"], []⟩

/-- The document `convert_df_to_pdf` builds for `tC8`. -/
def dC8 : PdfDoc := ⟨792, 612, 36, 36, 36, 36, "Filtered Data Report",
  [["<b>B</b>"]], [720]⟩

theorem pdf_page_height_fixed_witness : dC8.pageHeight = 612 :=
  (pdf_page_height_fixed tC8 none dC8
    (by norm_num [tC8, dC8, convert_df_to_pdf, pageWidth, pyMax, inch,
          strOfColName]
        decide)).2

/-- C9: with zero columns, the division `available_width / num_cols` raises
`ZeroDivisionError` before the guarded build step — for every build outcome
the result is that escaping error, never the `None` failure signal — and a
successful run implies at least one column, with every column width the
well-defined quotient `(pageWidth - 1 * inch) / num_cols`. -/
theorem pdf_zero_columns_escapes :
    (∀ (t : Table) (e : Option PyError), t.cols.length = 0 →
        convert_df_to_pdf e t = .error .zeroDivisionError) ∧
    (∀ (t : Table) (d : PdfDoc), convert_df_to_pdf none t = .ok (some d) →
        1 ≤ t.cols.length ∧
        d.colWidths = List.replicate t.cols.length
          ((pageWidth t.cols.length - 1 * inch) / (t.cols.length : ℚ))) := by
  constructor
  · intro t e h
    simp [convert_df_to_pdf, h]
  · intro t d h
    obtain ⟨hc, hd⟩ := convert_df_to_pdf_ok t none d h
    subst hd
    exact ⟨Nat.one_le_iff_ne_zero.mpr hc, rfl⟩

theorem pdf_zero_columns_escapes_witness :
    convert_df_to_pdf (some PyError.buildError)
      (⟨[], [[some (Val.str "x")]]⟩ : Table) = .error .zeroDivisionError :=
  pdf_zero_columns_escapes.1 ⟨[], [[some (Val.str "x")]]⟩
    (some PyError.buildError) rfl

/-! ### Header normalization: decimal rendering is invertible -/

/-- Value of a little-endian digit list. -/
def ofRevDigits : List ℕ → ℕ
  | [] => 0
  | d :: ds => d + 10 * ofRevDigits ds

lemma ofRevDigits_decDigitsAux :
    ∀ fuel n : ℕ, n ≤ fuel → ofRevDigits (decDigitsAux fuel n) = n := by
  intro fuel
  induction fuel with
  | zero =>
      intro n h
      have hn : n = 0 := by omega
      subst hn
      rfl
  | succ f ih =>
      intro n h
      by_cases hn : n = 0
      · subst hn; rfl
      · have hdiv : n / 10 ≤ f := by omega
        simp only [decDigitsAux, hn, if_false, ofRevDigits,
          ih (n / 10) hdiv]
        omega

lemma ofRevDigits_decDigits (n : ℕ) : ofRevDigits (decDigits n) = n :=
  ofRevDigits_decDigitsAux n n le_rfl

lemma decDigitsAux_lt_ten :
    ∀ fuel n d : ℕ, d ∈ decDigitsAux fuel n → d < 10 := by
  intro fuel
  induction fuel with
  | zero => intro n d h; simp [decDigitsAux] at h
  | succ f ih =>
      intro n d h
      by_cases hn : n = 0
      · subst hn; simp [decDigitsAux] at h
      · simp only [decDigitsAux, hn, if_false, List.mem_cons] at h
        rcases h with h | h
        · omega
        · exact ih _ _ h

lemma digitChar_toNat_sub : ∀ d : ℕ, d < 10 →
    (Nat.digitChar d).toNat - 48 = d := by decide

lemma map_toNat_digitChar (l : List ℕ) (h : ∀ d ∈ l, d < 10) :
    l.map (fun d => (Nat.digitChar d).toNat - 48) = l := by
  induction l with
  | nil => rfl
  | cons a tl ih =>
      simp only [List.map_cons, List.cons.injEq]
      exact ⟨digitChar_toNat_sub a (h a (by simp)),
        ih fun d hd => h d (by simp [hd])⟩

/-- Decoder for `natToDec`'s output. -/
def decodeDec (s : String) : ℕ :=
  ofRevDigits (s.data.reverse.map fun c => c.toNat - 48)

lemma decodeDec_natToDec (n : ℕ) : decodeDec (natToDec n) = n := by
  by_cases hn : n = 0
  · subst hn; decide
  · rw [natToDec, if_neg hn, decodeDec]
    show ofRevDigits
      ((((decDigits n).reverse.map Nat.digitChar)).reverse.map
        fun c => c.toNat - 48) = n
    rw [← List.map_reverse, List.reverse_reverse, List.map_map]
    simp only [Function.comp_def]
    rw [map_toNat_digitChar (decDigits n)
      fun d hd => decDigitsAux_lt_ten n n d hd]
    exact ofRevDigits_decDigits n

lemma natToDec_inj {m n : ℕ} (h : natToDec m = natToDec n) : m = n := by
  have hm := decodeDec_natToDec m
  rw [h, decodeDec_natToDec] at hm
  exact hm.symm

lemma unnamed_ne_of_ne {i j : ℕ} (h : i ≠ j) :
    "Unnamed: " ++ natToDec i ≠ "Unnamed: " ++ natToDec j := by
  intro heq
  apply h
  apply natToDec_inj
  have hd := congrArg String.data heq
  rw [String.data_append, String.data_append] at hd
  exact String.ext (List.append_cancel_left hd)

lemma ne_unnamed_of_short (s : String) (hs : s.data.length < 9) :
    ∀ x : String, s ≠ "Unnamed: " ++ x := by
  intro x h
  have hd := congrArg String.data h
  rw [String.data_append] at hd
  have hlen := congrArg List.length hd
  rw [List.length_append] at hlen
  have h9 : ("Unnamed: ").data.length = 9 := by decide
  omega

lemma unnamed_ne_empty (x : String) : "Unnamed: " ++ x ≠ "" := by
  intro h
  exact ne_unnamed_of_short "" (by decide) x h.symm

/-! ### Header normalization: positional facts -/

lemma processHeadersFrom_length :
    ∀ (l : List Cell) (k : ℕ), (processHeadersFrom k l).length = l.length := by
  intro l
  induction l with
  | nil => intro k; rfl
  | cons c cs ih => intro k; simp [processHeadersFrom, ih]

lemma processHeadersFrom_getElem? :
    ∀ (l : List Cell) (k i : ℕ),
      (processHeadersFrom k l)[i]? =
        (l[i]?).map fun c => headerName (k + i) c := by
  intro l
  induction l with
  | nil => intro k i; simp [processHeadersFrom]
  | cons c cs ih =>
      intro k i
      cases i with
      | zero => simp [processHeadersFrom]
      | succ i₂ =>
          simp only [processHeadersFrom, List.getElem?_cons_succ, ih (k + 1) i₂]
          rw [show k + 1 + i₂ = k + (i₂ + 1) by omega]

lemma processHeaders_length (raw : List Cell) :
    (processHeaders raw).length = raw.length :=
  processHeadersFrom_length raw 0

/-- C6 (amended): every absent/null header cell is assigned the synthetic
name `Unnamed: <positional index>` (0-based).  The resulting column names
are unique and non-empty provided the string forms of the non-null header
cells are pairwise distinct, non-empty, and never of the synthetic
`Unnamed: <k>` shape; the code itself does not enforce this — duplicate or
empty non-null header strings pass through verbatim (see the
counterexample). -/
theorem processHeaders_amended (raw : List Cell)
    (hstr : ∀ (i : ℕ) (v : Val), raw[i]? = some (some v) →
      strOfVal v ≠ "" ∧ ∀ k : ℕ, strOfVal v ≠ "Unnamed: " ++ natToDec k)
    (hdis : ∀ (i j : ℕ) (v w : Val), raw[i]? = some (some v) →
      raw[j]? = some (some w) → i ≠ j → strOfVal v ≠ strOfVal w) :
    (∀ i : ℕ, raw[i]? = some none →
      (processHeaders raw)[i]? = some ("Unnamed: " ++ natToDec i)) ∧
    (processHeaders raw).Nodup ∧
    ∀ s ∈ processHeaders raw, s ≠ "" := by
  refine ⟨?_, ?_, ?_⟩
  · intro i h
    rw [processHeaders, processHeadersFrom_getElem?, h]
    simp [headerName]
  · rw [List.nodup_iff_getElem?_ne_getElem?]
    intro i j hij hj hcontra
    rw [processHeaders, processHeadersFrom_getElem?,
      processHeadersFrom_getElem?] at hcontra
    have hjlen : j < raw.length := by
      rw [processHeaders, processHeadersFrom_length] at hj
      exact hj
    have hilen : i < raw.length := lt_trans hij hjlen
    rcases hgi : raw[i]? with _ | ci
    · rw [List.getElem?_eq_none_iff] at hgi; omega
    · rcases hgj : raw[j]? with _ | cj
      · rw [List.getElem?_eq_none_iff] at hgj; omega
      · rw [hgi, hgj] at hcontra
        simp only [Option.map_some', Option.some.injEq,
          Nat.zero_add] at hcontra
        have hij₂ : i ≠ j := by omega
        cases ci with
        | none =>
            cases cj with
            | none =>
                exact unnamed_ne_of_ne hij₂
                  (by simpa [headerName] using hcontra)
            | some w =>
                exact ((hstr j w hgj).2 i)
                  (by simpa [headerName] using hcontra.symm)
        | some v =>
            cases cj with
            | none =>
                exact ((hstr i v hgi).2 j)
                  (by simpa [headerName] using hcontra)
            | some w =>
                exact hdis i j v w hgi hgj hij₂
                  (by simpa [headerName] using hcontra)
  · intro s hs
    obtain ⟨i, hi⟩ := List.mem_iff_getElem?.mp hs
    rw [processHeaders, processHeadersFrom_getElem?] at hi
    rcases hgi : raw[i]? with _ | ci
    · rw [hgi] at hi; simp at hi
    · rw [hgi] at hi
      simp only [Option.map_some', Option.some.injEq, Nat.zero_add] at hi
      cases ci with
      | none =>
          rw [← hi]
          exact unnamed_ne_empty _
      | some v =>
          rw [← hi]
          exact (hstr i v hgi).1

theorem processHeaders_amended_witness :
    (processHeaders [none, none]).Nodup :=
  (processHeaders_amended [none, none]
    (by intro i v h; rcases i with _ | _ | i <;> simp at h)
    (by intro i j v w h; rcases i with _ | _ | i <;> simp at h)).2.1

/-- Concrete sheet refuting the uniqueness/non-emptiness half of C6: its
header row is `["A", "A", ""]`. -/
def gC6 : Grid := fun _ j =>
  if j ≤ 1 then some (.str "A") else some (.str "")

/-- C6 counterexample: loading `gC6` with header row 0 produces duplicate
column names and an empty column name, so the claim's "unique and non-empty
after normalization" fails on the code. -/
theorem processHeaders_unique_cex :
    ¬ (load_data gC6 1 3 [] 0).cols.Nodup ∧
    ColName.named "" ∈ (load_data gC6 1 3 [] 0).cols := by decide

end Excel
